import Mathlib

/-!
Shallow embedding of the NenDB benchmark harness (Python sources under
`resource_benchmark.py`, `accurate_resource_benchmark.py`, `fair_benchmark.py`,
`real_memgraph_benchmark.py`, `competitive_benchmark.py`).

Conventions of the embedding:
* Python floats are modelled as rationals (`ℚ`).
* A Python function that can raise an exception which the caller's
  `try/except` turns into the empty-dict failure marker `{}` is modelled as an
  `Option`-valued function returning `none` on that path.
* Subprocess stdout is modelled as the list of its lines (`List String`),
  exactly as produced by `output.split('\n')` in the sources.
-/

namespace NenDBBench

/-- Division as Python performs it: dividing by zero raises
`ZeroDivisionError`, which every benchmark wraps in `try/except` and turns
into the empty-result marker; modelled as `none`. -/
def safeDiv (a b : ℚ) : Option ℚ := if b = 0 then none else some (a / b)

/-- Python's `min` over a list of floats.  `min([])` raises in Python; every
call site in the sources guards for emptiness first, so the value at `[]` is
never observed. -/
def pyMin : List ℚ → ℚ
  | [] => 0
  | x :: xs => xs.foldl min x

/-- Python's `max` over a list of floats (see `pyMin` about the `[]` case). -/
def pyMax : List ℚ → ℚ
  | [] => 0
  | x :: xs => xs.foldl max x

/-- Arithmetic mean `sum(l)/len(l)` as written in both monitors
(`statistics.mean` agrees with this on non-empty data). -/
def listAvg (l : List ℚ) : ℚ := l.sum / l.length

/-- Return dictionary of
`AccurateResourceBenchmark.monitor_process_resources`
(`accurate_resource_benchmark.py` lines 75-82). -/
structure ProcStats where
  cpu_avg : ℚ
  cpu_max : ℚ
  cpu_min : ℚ
  memory_avg_mb : ℚ
  memory_max_mb : ℚ
  memory_min_mb : ℚ
deriving DecidableEq, Repr

/-- Aggregation step of
`AccurateResourceBenchmark.monitor_process_resources`
(`accurate_resource_benchmark.py` lines 72-82): `if not cpu_usage or not
memory_usage: return {}`, otherwise the min/mean/max summary dict. -/
def monitor_process_aggregate (cpu_usage memory_usage : List ℚ) :
    Option ProcStats :=
  if cpu_usage = [] ∨ memory_usage = [] then none
  else some
    { cpu_avg := listAvg cpu_usage
      cpu_max := pyMax cpu_usage
      cpu_min := pyMin cpu_usage
      memory_avg_mb := listAvg memory_usage
      memory_max_mb := pyMax memory_usage
      memory_min_mb := pyMin memory_usage }

/-- Return dictionary of `ResourceBenchmark.monitor_resources`
(`resource_benchmark.py` lines 53-62). -/
structure SysStats where
  cpu_avg : ℚ
  cpu_max : ℚ
  cpu_min : ℚ
  memory_avg_gb : ℚ
  memory_max_gb : ℚ
  memory_min_gb : ℚ
  disk_read_total_mb : ℚ
  disk_write_total_mb : ℚ
deriving DecidableEq, Repr

/-- Aggregation step of `ResourceBenchmark.monitor_resources`
(`resource_benchmark.py` lines 53-62).  On an empty sample list
`statistics.mean` raises `StatisticsError` (and `max`/`min` would raise
`ValueError`); the exception propagates to the benchmark's `try/except`,
which yields the empty-result marker: modelled as `none`. -/
def monitor_resources_aggregate (cpu_usage memory_usage : List ℚ)
    (disk_io : List (ℚ × ℚ)) : Option SysStats :=
  if cpu_usage = [] ∨ memory_usage = [] then none
  else some
    { cpu_avg := listAvg cpu_usage
      cpu_max := pyMax cpu_usage
      cpu_min := pyMin cpu_usage
      memory_avg_gb := listAvg memory_usage
      memory_max_gb := pyMax memory_usage
      memory_min_gb := pyMin memory_usage
      disk_read_total_mb := (disk_io.map Prod.fst).sum / (1024 * 1024)
      disk_write_total_mb := (disk_io.map Prod.snd).sum / (1024 * 1024) }

/-- Return dictionary of
`AccurateResourceBenchmark.monitor_system_resources`
(`accurate_resource_benchmark.py` lines 254-261). -/
structure AccSystemStats where
  cpu_avg : ℚ
  cpu_max : ℚ
  cpu_min : ℚ
  memory_avg_gb : ℚ
  memory_max_gb : ℚ
  memory_min_gb : ℚ
deriving DecidableEq, Repr

/-- Sampling loop of
`AccurateResourceBenchmark.monitor_process_resources`
(`accurate_resource_benchmark.py` lines 56-70).  The target process is
modelled as a map from tick index to `some (cpu_percent, memory_mb)` while it
is alive and accessible, and to `none` once reading it raises
`psutil.NoSuchProcess` or `psutil.AccessDenied`, on which the loop `break`s.
The first argument of the recursion is the number of ticks still fitting in
the requested duration. -/
def sampleLoop (process : Nat → Option (ℚ × ℚ)) :
    Nat → Nat → List ℚ × List ℚ
  | 0, _ => ([], [])
  | n + 1, t =>
    match process t with
    | none => ([], [])
    | some (c, m) =>
      let rest := sampleLoop process n (t + 1)
      (c :: rest.1, m :: rest.2)

/-- `AccurateResourceBenchmark.monitor_process_resources`
(`accurate_resource_benchmark.py` lines 48-82): run the sampling loop for
`duration` ticks, then aggregate. -/
def monitor_process_resources (process : Nat → Option (ℚ × ℚ))
    (duration : Nat) : Option ProcStats :=
  let s := sampleLoop process duration 0
  monitor_process_aggregate s.1 s.2

/-! Workload-output parsing, shared verbatim by
`ResourceBenchmark.benchmark_nendb_resources`,
`AccurateResourceBenchmark.benchmark_nendb_accurate` and
`FairBenchmark.benchmark_nendb_fair`. -/

/-- Python's `str.strip()` (whitespace trimming) on a character list. -/
def trimChars (cs : List Char) : List Char :=
  ((cs.dropWhile Char.isWhitespace).reverse.dropWhile Char.isWhitespace).reverse

/-- Value of a decimal digit character, `none` for a non-digit. -/
def digitVal (c : Char) : Option Nat :=
  if c.isDigit then some (c.toNat - 48) else none

/-- Reads a digit string as a natural number, `none` if any character is not
a digit. -/
def natOfDigits (cs : List Char) : Option Nat :=
  cs.foldl (fun acc c => acc.bind fun a => (digitVal c).map fun d => a * 10 + d)
    (some 0)

/-- Python's `float()` restricted to the unsigned decimal literals the
benchmark output contains (`"0.003328"`, `"1"`, ...).  Inputs Python would
reject with `ValueError` give `none`; the benchmarks run `float()` inside the
surrounding `try/except`, so both sides turn a failed conversion into the
empty-result marker. -/
def parsePyFloat (cs : List Char) : Option ℚ :=
  match cs.splitOn '.' with
  | [w] => if w = [] then none else (natOfDigits w).map fun n => (n : ℚ)
  | [w, f] =>
    if w = [] ∧ f = [] then none
    else
      match natOfDigits w, natOfDigits f with
      | some n, some m => some ((n : ℚ) + (m : ℚ) / (10 : ℚ) ^ f.length)
      | _, _ => none
  | _ => none

/-- Python's `pat in hay` substring test on character lists. -/
def containsSeq (pat : List Char) : List Char → Bool
  | [] => pat.isEmpty
  | c :: cs => pat.isPrefixOf (c :: cs) || containsSeq pat cs

/-- The text after the first occurrence of `sep`, `none` when `sep` does not
occur.  `hay.splitOn sep` in Python has `[1]` equal to
`upToFirst sep (afterFirst sep hay)`. -/
def afterFirst (sep : List Char) : List Char → Option (List Char)
  | [] => none
  | c :: cs =>
    if sep.isPrefixOf (c :: cs) then some ((c :: cs).drop sep.length)
    else afterFirst sep cs

/-- The text before the first occurrence of `sep` (the whole list when `sep`
does not occur); this is Python's `hay.split(sep)[0]`. -/
def upToFirst (sep : List Char) : List Char → List Char
  | [] => []
  | c :: cs =>
    if sep.isPrefixOf (c :: cs) then [] else c :: upToFirst sep cs

/-- Python's `pat in line` on strings. -/
def strContains (line pat : String) : Bool :=
  containsSeq pat.toList line.toList

/-- The expression
`float(line.split("Average:")[1].split("ms")[0].strip())` used by every
workload-output parse loop in the sources. -/
def extract_avg (line : String) : Option ℚ :=
  (afterFirst "Average:".toList line.toList).bind fun tail =>
    parsePyFloat (trimChars (upToFirst "ms".toList
      (upToFirst "Average:".toList tail)))

/-- One iteration of the parse loop (`resource_benchmark.py` lines 182-186,
identical in `accurate_resource_benchmark.py` and `fair_benchmark.py`): state
is the pair `(insert_time, lookup_time)` of optional parsed values; a failing
`float()` conversion raises out of the whole benchmark, modelled as `none`. -/
def parse_step (st : Option ℚ × Option ℚ) (line : String) :
    Option (Option ℚ × Option ℚ) :=
  if strContains line "Average:" && strContains line "ms per insert" then
    (extract_avg line).map fun v => (some v, st.2)
  else if strContains line "Average:" && strContains line "ms per lookup" then
    (extract_avg line).map fun v => (st.1, some v)
  else
    some st

/-- The whole parse loop over the subprocess output lines, starting from
`insert_time = None; lookup_time = None`. -/
def parse_bench_output (lines : List String) :
    Option (Option ℚ × Option ℚ) :=
  lines.foldlM parse_step (none, none)

/-- Fallback constant `insert_time = 0.003328` hardcoded at
`resource_benchmark.py` line 190 and `accurate_resource_benchmark.py`
line 194. -/
def resource_insert_fallback : ℚ := 3328 / 1000000

/-- Fallback constant `lookup_time = 0.003130` hardcoded at
`resource_benchmark.py` line 191 and `accurate_resource_benchmark.py`
line 195. -/
def resource_lookup_fallback : ℚ := 3130 / 1000000

/-- Fallback constant `insert_time = 0.004547` hardcoded at
`fair_benchmark.py` line 138 (and `real_memgraph_benchmark.py` line 146). -/
def fair_insert_fallback : ℚ := 4547 / 1000000

/-- Fallback constant `lookup_time = 0.002881` hardcoded at
`fair_benchmark.py` line 139 (and `real_memgraph_benchmark.py` line 147). -/
def fair_lookup_fallback : ℚ := 2881 / 1000000

/-- Return dictionary of `ResourceBenchmark.benchmark_nendb_resources`
(`resource_benchmark.py` lines 203-215). -/
structure NendbResourceResult where
  creation_rate : ℚ
  lookup_rate : ℚ
  insert_time_ms : ℚ
  lookup_time_ms : ℚ
  cpu_avg : ℚ
  cpu_max : ℚ
  memory_avg_gb : ℚ
  memory_max_gb : ℚ
  disk_read_mb : ℚ
  disk_write_mb : ℚ
  environment : String
deriving DecidableEq, Repr

/-- `ResourceBenchmark.benchmark_nendb_resources`
(`resource_benchmark.py` lines 151-221), given the already-measured baseline
stats and the subprocess output lines.  The fallback branch tests only
`insert_time is None` (line 188); when it is taken, both constants are
substituted.  A still-unset `lookup_time` makes `1000 / lookup_time` raise
`TypeError`, caught by the enclosing `except` which returns `{}`: `none`. -/
def benchmark_nendb_resources (baseline : SysStats) (lines : List String) :
    Option NendbResourceResult := do
  let parsed ← parse_bench_output lines
  let (insert_t, lookup_t) :=
    match parsed.1 with
    | none => (some resource_insert_fallback, some resource_lookup_fallback)
    | some v => (some v, parsed.2)
  let it ← insert_t
  let lt ← lookup_t
  let insert_rate ← safeDiv 1000 it
  let lookup_rate ← safeDiv 1000 lt
  some
    { creation_rate := insert_rate
      lookup_rate := lookup_rate
      insert_time_ms := it
      lookup_time_ms := lt
      cpu_avg := baseline.cpu_avg
      cpu_max := baseline.cpu_max
      memory_avg_gb := baseline.memory_avg_gb
      memory_max_gb := baseline.memory_max_gb
      disk_read_mb := baseline.disk_read_total_mb
      disk_write_mb := baseline.disk_write_total_mb
      environment := "Native macOS" }

/-- Return dictionary of `ResourceBenchmark.benchmark_memgraph_resources`
(`resource_benchmark.py` lines 131-143). -/
structure MemgraphResourceResult where
  creation_rate : ℚ
  lookup_rate : ℚ
  creation_time : ℚ
  lookup_time : ℚ
  cpu_avg : ℚ
  cpu_max : ℚ
  memory_avg_gb : ℚ
  memory_max_gb : ℚ
  disk_read_mb : ℚ
  disk_write_mb : ℚ
  environment : String
deriving DecidableEq, Repr

/-- Rate computation of `ResourceBenchmark.benchmark_memgraph_resources`
(`resource_benchmark.py` lines 121-143): 10000 nodes were created in
`creation_time` seconds and 1000 lookups ran in `lookup_time` seconds. -/
def benchmark_memgraph_resources (baseline : SysStats)
    (creation_time lookup_time : ℚ) : Option MemgraphResourceResult := do
  let nodes_per_second ← safeDiv 10000 creation_time
  let lookups_per_second ← safeDiv 1000 lookup_time
  some
    { creation_rate := nodes_per_second
      lookup_rate := lookups_per_second
      creation_time := creation_time
      lookup_time := lookup_time
      cpu_avg := baseline.cpu_avg
      cpu_max := baseline.cpu_max
      memory_avg_gb := baseline.memory_avg_gb
      memory_max_gb := baseline.memory_max_gb
      disk_read_mb := baseline.disk_read_total_mb
      disk_write_mb := baseline.disk_write_total_mb
      environment := "Docker Container" }

/-- Return dictionary of `RealMemgraphBenchmark.benchmark_memgraph`
(`real_memgraph_benchmark.py` lines 101-111). -/
structure RealMemgraphResult where
  node_creation_ms : ℚ
  node_lookup_ms : ℚ
  relationship_creation_ms : ℚ
  node_creation_rate : ℚ
  node_lookup_rate : ℚ
  relationship_creation_rate : ℚ
  memory_per_node : ℚ
  zero_fragmentation : Bool
  predictable_performance : Bool
deriving DecidableEq, Repr

/-- Rate computation of `RealMemgraphBenchmark.benchmark_memgraph`
(`real_memgraph_benchmark.py` lines 50-111): each phase ran 1000 operations
in the given elapsed wall-clock seconds. -/
def real_benchmark_memgraph (node_creation_time node_lookup_time
    rel_creation_time : ℚ) : Option RealMemgraphResult := do
  let node_creation_rate ← safeDiv 1000 node_creation_time
  let node_lookup_rate ← safeDiv 1000 node_lookup_time
  let rel_creation_rate ← safeDiv 1000 rel_creation_time
  some
    { node_creation_ms := node_creation_time / 1000 * 1000
      node_lookup_ms := node_lookup_time / 1000 * 1000
      relationship_creation_ms := rel_creation_time / 1000 * 1000
      node_creation_rate := node_creation_rate
      node_lookup_rate := node_lookup_rate
      relationship_creation_rate := rel_creation_rate
      memory_per_node := 200
      zero_fragmentation := false
      predictable_performance := false }

/-- Return dictionary of
`AccurateResourceBenchmark.benchmark_nendb_accurate`
(`accurate_resource_benchmark.py` lines 216-227). -/
structure AccurateNendbResult where
  creation_rate : ℚ
  lookup_rate : ℚ
  insert_time_ms : ℚ
  lookup_time_ms : ℚ
  cpu_avg : ℚ
  cpu_max : ℚ
  memory_avg_gb : ℚ
  memory_max_gb : ℚ
  environment : String
  note : String
deriving DecidableEq, Repr

/-- `AccurateResourceBenchmark.benchmark_nendb_accurate`
(`accurate_resource_benchmark.py` lines 169-233): same parse and fallback
shape as `benchmark_nendb_resources` (the fallback branch again tests only
`insert_time is None`, line 192). -/
def benchmark_nendb_accurate (baseline : AccSystemStats)
    (lines : List String) : Option AccurateNendbResult := do
  let parsed ← parse_bench_output lines
  let (insert_t, lookup_t) :=
    match parsed.1 with
    | none => (some resource_insert_fallback, some resource_lookup_fallback)
    | some v => (some v, parsed.2)
  let it ← insert_t
  let lt ← lookup_t
  let insert_rate ← safeDiv 1000 it
  let lookup_rate ← safeDiv 1000 lt
  some
    { creation_rate := insert_rate
      lookup_rate := lookup_rate
      insert_time_ms := it
      lookup_time_ms := lt
      cpu_avg := baseline.cpu_avg
      cpu_max := baseline.cpu_max
      memory_avg_gb := baseline.memory_avg_gb
      memory_max_gb := baseline.memory_max_gb
      environment := "Native macOS"
      note := "System-wide measurement during execution" }

/-- Return dictionary of `FairBenchmark.benchmark_nendb_fair` and
`FairBenchmark.benchmark_memgraph_fair` (`fair_benchmark.py` lines 93-105
and 145-157). -/
structure FairResults where
  single_create_ms : ℚ
  single_lookup_ms : ℚ
  batch_create_ms : ℚ
  batch_lookup_ms : ℚ
  single_create_rate : ℚ
  single_lookup_rate : ℚ
  batch_create_rate : ℚ
  batch_lookup_rate : ℚ
  memory_per_node : ℚ
  zero_fragmentation : Bool
  predictable_performance : Bool
deriving DecidableEq, Repr

/-- `FairBenchmark.benchmark_nendb_fair` (`fair_benchmark.py` lines
113-161).  Unlike the resource benchmarks its fallback branch tests
`insert_time is None or lookup_time is None` (line 135). -/
def benchmark_nendb_fair (lines : List String) : Option FairResults := do
  let parsed ← parse_bench_output lines
  let (it, lt) :=
    match parsed.1, parsed.2 with
    | some i, some t => (i, t)
    | _, _ => (fair_insert_fallback, fair_lookup_fallback)
  let single_create_rate ← safeDiv 1000 it
  let single_lookup_rate ← safeDiv 1000 lt
  some
    { single_create_ms := it
      single_lookup_ms := lt
      batch_create_ms := it
      batch_lookup_ms := lt
      single_create_rate := single_create_rate
      single_lookup_rate := single_lookup_rate
      batch_create_rate := single_create_rate
      batch_lookup_rate := single_lookup_rate
      memory_per_node := 144
      zero_fragmentation := true
      predictable_performance := true }

/-! Comparator embeddings. -/

/-- A Python float value that may be the special `float('inf')`. -/
inductive PyVal where
  | num (q : ℚ)
  | inf
deriving DecidableEq, Repr

/-- `cpu_efficiency = memgraph_cpu / nendb_cpu if nendb_cpu > 0 else
float('inf')` (`resource_benchmark.py` line 268). -/
def cpu_efficiency (memgraph_cpu nendb_cpu : ℚ) : PyVal :=
  if 0 < nendb_cpu then .num (memgraph_cpu / nendb_cpu) else .inf

/-- `memory_efficiency = memgraph_mem / nendb_mem if nendb_mem > 0 else
float('inf')` (`resource_benchmark.py` line 286). -/
def memory_efficiency (memgraph_mem nendb_mem : ℚ) : PyVal :=
  if 0 < nendb_mem then .num (memgraph_mem / nendb_mem) else .inf

/-- `create / cpu if cpu > 0 else 0` (`resource_benchmark.py` lines
302-303). -/
def per_cpu_efficiency (create cpu : ℚ) : ℚ :=
  if 0 < cpu then create / cpu else 0

/-- `create / mem if mem > 0 else 0` (`resource_benchmark.py` lines
314-315). -/
def per_mem_efficiency (create mem : ℚ) : ℚ :=
  if 0 < mem then create / mem else 0

/-- The six strict comparisons of the resource efficiency score
(`resource_benchmark.py` lines 345-350). -/
def resource_total_score (n : NendbResourceResult)
    (m : MemgraphResourceResult) : Nat :=
  (if m.creation_rate < n.creation_rate then 1 else 0) +
  (if n.cpu_avg < m.cpu_avg then 1 else 0) +
  (if n.memory_avg_gb < m.memory_avg_gb then 1 else 0) +
  (if per_cpu_efficiency m.creation_rate m.cpu_avg <
      per_cpu_efficiency n.creation_rate n.cpu_avg then 1 else 0) +
  (if per_mem_efficiency m.creation_rate m.memory_avg_gb <
      per_mem_efficiency n.creation_rate n.memory_avg_gb then 1 else 0) +
  (if n.disk_read_mb + n.disk_write_mb <
      m.disk_read_mb + m.disk_write_mb then 1 else 0)

/-- `max_score = 6` (`resource_benchmark.py` line 343). -/
def resource_max_score : Nat := 6

/-- The part of the report of
`ResourceBenchmark.generate_resource_report` that later claims refer to
(`resource_benchmark.py` lines 241-354). -/
structure ResourceReport where
  perf_ratio_q : ℚ
  cpu_efficiency_val : PyVal
  memory_efficiency_val : PyVal
  nendb_cpu_eff : ℚ
  memgraph_cpu_eff : ℚ
  nendb_mem_eff : ℚ
  memgraph_mem_eff : ℚ
  score : Nat
  max_score : Nat
deriving DecidableEq, Repr

/-- `ResourceBenchmark.generate_resource_report`
(`resource_benchmark.py` lines 241-354).  `performance_ratio = nendb_create /
memgraph_create` (line 254) is unguarded, so a zero Memgraph creation rate
raises `ZeroDivisionError` and no report is produced. -/
def generate_resource_report (n : NendbResourceResult)
    (m : MemgraphResourceResult) : Option ResourceReport := do
  let performance_quotient ← safeDiv n.creation_rate m.creation_rate
  some
    { perf_ratio_q := performance_quotient
      cpu_efficiency_val := cpu_efficiency m.cpu_avg n.cpu_avg
      memory_efficiency_val := memory_efficiency m.memory_avg_gb n.memory_avg_gb
      nendb_cpu_eff := per_cpu_efficiency n.creation_rate n.cpu_avg
      memgraph_cpu_eff := per_cpu_efficiency m.creation_rate m.cpu_avg
      nendb_mem_eff := per_mem_efficiency n.creation_rate n.memory_avg_gb
      memgraph_mem_eff := per_mem_efficiency m.creation_rate m.memory_avg_gb
      score := resource_total_score n m
      max_score := resource_max_score }

/-- The fair-assessment score (`fair_benchmark.py` lines 262-268): four
strict metric comparisons plus the two boolean quality flags of the NenDB
side. -/
def fair_total_score (nendb memgraph : FairResults) : Nat :=
  (if nendb.single_create_ms < memgraph.single_create_ms then 1 else 0) +
  (if nendb.batch_create_ms < memgraph.batch_create_ms then 1 else 0) +
  (if memgraph.single_create_rate < nendb.single_create_rate then 1 else 0) +
  (if nendb.memory_per_node < memgraph.memory_per_node then 1 else 0) +
  (if nendb.zero_fragmentation then 1 else 0) +
  (if nendb.predictable_performance then 1 else 0)

/-- `max_score = 6` (`fair_benchmark.py` line 270). -/
def fair_max_score : Nat := 6

/-- Modelled from the claim's words: the number of compared metrics on which
the designated self side (NenDB) wins strictly in the fair assessment. -/
def fair_strict_metric_wins (nendb memgraph : FairResults) : Nat :=
  (if nendb.single_create_ms < memgraph.single_create_ms then 1 else 0) +
  (if nendb.batch_create_ms < memgraph.batch_create_ms then 1 else 0) +
  (if memgraph.single_create_rate < nendb.single_create_rate then 1 else 0) +
  (if nendb.memory_per_node < memgraph.memory_per_node then 1 else 0)

/-- The number of boolean quality flags of the NenDB side that are set. -/
def fair_flag_count (nendb : FairResults) : Nat :=
  (if nendb.zero_fragmentation then 1 else 0) +
  (if nendb.predictable_performance then 1 else 0)

/-- Result dictionaries of `CompetitiveBenchmark.run_*_benchmarks`
(`competitive_benchmark.py` lines 30-39 and analogous), restricted to the
fields the report's score reads. -/
structure CompetitiveResults where
  memory_per_node : ℚ
  insert_latency_ms : ℚ
  throughput_ops_per_sec : ℚ
  zero_fragmentation : Bool
  predictable_performance : Bool
deriving DecidableEq, Repr

/-- The competitive-positioning score (`competitive_benchmark.py` lines
239-247): six strict metric comparisons against Neo4j and Memgraph plus the
two boolean quality flags of the NenDB side. -/
def competitive_total_score (nendb neo4j memgraph : CompetitiveResults) :
    Nat :=
  (if nendb.memory_per_node < neo4j.memory_per_node then 1 else 0) +
  (if nendb.memory_per_node < memgraph.memory_per_node then 1 else 0) +
  (if nendb.insert_latency_ms < neo4j.insert_latency_ms then 1 else 0) +
  (if nendb.insert_latency_ms < memgraph.insert_latency_ms then 1 else 0) +
  (if neo4j.throughput_ops_per_sec < nendb.throughput_ops_per_sec
    then 1 else 0) +
  (if memgraph.throughput_ops_per_sec < nendb.throughput_ops_per_sec
    then 1 else 0) +
  (if nendb.zero_fragmentation then 1 else 0) +
  (if nendb.predictable_performance then 1 else 0)

/-- `max_score = 8` (`competitive_benchmark.py` line 249). -/
def competitive_max_score : Nat := 8

/-- Modelled from the claim's words: the strictly-won metric comparisons of
the competitive score. -/
def competitive_strict_metric_wins (nendb neo4j memgraph :
    CompetitiveResults) : Nat :=
  (if nendb.memory_per_node < neo4j.memory_per_node then 1 else 0) +
  (if nendb.memory_per_node < memgraph.memory_per_node then 1 else 0) +
  (if nendb.insert_latency_ms < neo4j.insert_latency_ms then 1 else 0) +
  (if nendb.insert_latency_ms < memgraph.insert_latency_ms then 1 else 0) +
  (if neo4j.throughput_ops_per_sec < nendb.throughput_ops_per_sec
    then 1 else 0) +
  (if memgraph.throughput_ops_per_sec < nendb.throughput_ops_per_sec
    then 1 else 0)

/-- The number of boolean quality flags of the NenDB side that are set. -/
def competitive_flag_count (nendb : CompetitiveResults) : Nat :=
  (if nendb.zero_fragmentation then 1 else 0) +
  (if nendb.predictable_performance then 1 else 0)

/-- Modelled from the claim's words: the strictly-won metric comparisons of
the resource efficiency score (all six of its terms compare metrics; it has
no boolean flags). -/
def resource_strict_metric_wins (n : NendbResourceResult)
    (m : MemgraphResourceResult) : Nat :=
  resource_total_score n m

/-! The accurate-report comparator
(`accurate_resource_benchmark.py` lines 282-326). -/

/-- The Memgraph memory statistics as stored in the result dictionary:
the process-specific path stores `memory_avg_mb`/`memory_max_mb`
(megabytes, per process), the fallback branch of the report expects
`memory_avg_gb` (gigabytes, system-wide).  The keys present in the
dictionary encode the measurement scope. -/
inductive MemgraphMemStats where
  | processMB (avg_mb max_mb : ℚ)
  | systemGB (avg_gb max_gb : ℚ)
deriving DecidableEq, Repr

/-- Return dictionary of
`AccurateResourceBenchmark.benchmark_memgraph_accurate`
(`accurate_resource_benchmark.py` lines 152-161). -/
structure AccurateMemgraphResult where
  creation_rate : ℚ
  creation_time : ℚ
  cpu_avg : ℚ
  cpu_max : ℚ
  mem : MemgraphMemStats
  environment : String
  process_id : Nat
deriving DecidableEq, Repr

/-- Measurement scope of an aggregated result set. -/
inductive Scope where
  | processScoped
  | systemScoped
deriving DecidableEq, Repr

/-- Scope of the Memgraph side, read off the keys its result dictionary
carries (`memory_avg_mb` means per-process measurement). -/
def memgraph_scope (m : AccurateMemgraphResult) : Scope :=
  match m.mem with
  | .processMB _ _ => .processScoped
  | .systemGB _ _ => .systemScoped

/-- Scope of the NenDB side of the accurate benchmark: always system-wide
(its memory fields are system gigabytes and its `note` field says
"System-wide measurement during execution"). -/
def nendb_scope (_ : AccurateNendbResult) : Scope := .systemScoped

/-- The report text of
`AccurateResourceBenchmark.generate_accurate_report` that later claims refer
to: the computed performance quotient, the memory-usage lines (whose units
depend on the Memgraph scope), and the fixed ANALYSIS caveat lines printed at
`accurate_resource_benchmark.py` lines 315-319. -/
structure AccurateReport where
  perf_ratio_q : ℚ
  memory_lines : List String
  analysis : List String
deriving DecidableEq, Repr

/-- `AccurateResourceBenchmark.generate_accurate_report`
(`accurate_resource_benchmark.py` lines 282-326).  `performance_ratio =
nendb_create / memgraph_create` (line 292) is unguarded, so a zero Memgraph
creation rate raises `ZeroDivisionError` and no report is produced. -/
def generate_accurate_report (nendb : AccurateNendbResult)
    (memgraph : AccurateMemgraphResult) : Option AccurateReport := do
  let performance_quotient ← safeDiv nendb.creation_rate memgraph.creation_rate
  some
    { perf_ratio_q := performance_quotient
      memory_lines :=
        match memgraph.mem with
        | .processMB _ _ => ["NenDB: GB (system)", "Memgraph: MB (process)"]
        | .systemGB _ _ => ["NenDB: GB (system)", "Memgraph: GB (system)"]
      analysis :=
        ["Resource measurement methods differ",
         "Process-specific vs system-wide measurements",
         "Results may not be directly comparable"] }

/-! Target locator
(`accurate_resource_benchmark.py` lines 20-46). -/

/-- What `psutil.process_iter(['pid', 'name', 'cmdline'])` yields for one
process: the short name (`None` possible), the command-line token list, and
whether reading its info succeeds (`accessible = false` models a process
that raises `psutil.NoSuchProcess`/`psutil.AccessDenied` and is skipped by
the `continue`). -/
structure ProcInfo where
  name : Option String
  cmdline : List String
  accessible : Bool
deriving DecidableEq, Repr

/-- Python's `s.lower()` as a character list. -/
def pyLower (s : String) : List Char :=
  s.toList.map Char.toLower

/-- The name test `proc.info['name'] and hint in proc.info['name'].lower()`
(an empty or `None` name is falsy and never matches). -/
def name_matches (hint : String) (p : ProcInfo) : Bool :=
  match p.name with
  | some n => n ≠ "" && containsSeq hint.toList (pyLower n)
  | none => false

/-- `' '.join(proc.info['cmdline']).lower()`. -/
def joined_cmdline (p : ProcInfo) : List Char :=
  pyLower (String.intercalate " " p.cmdline)

/-- The whole match condition of
`AccurateResourceBenchmark.find_memgraph_process`
(`accurate_resource_benchmark.py` lines 24-29). -/
def matches_memgraph (p : ProcInfo) : Bool :=
  name_matches "memgraph" p ||
    (!p.cmdline.isEmpty && containsSeq "memgraph".toList (joined_cmdline p))

/-- The whole match condition of
`AccurateResourceBenchmark.find_nendb_process`
(`accurate_resource_benchmark.py` lines 38-43): the name is tested for
`'nen'`, the command line for `'nendb' in cmdline or 'nen' in cmdline`. -/
def matches_nendb (p : ProcInfo) : Bool :=
  name_matches "nen" p ||
    (!p.cmdline.isEmpty &&
      (containsSeq "nendb".toList (joined_cmdline p) ||
       containsSeq "nen".toList (joined_cmdline p)))

/-- `AccurateResourceBenchmark.find_memgraph_process`
(`accurate_resource_benchmark.py` lines 20-32): first match wins, a process
whose info raises is skipped, no match returns `None`. -/
def find_memgraph_process : List ProcInfo → Option ProcInfo
  | [] => none
  | p :: ps =>
    if p.accessible then
      if name_matches "memgraph" p then some p
      else if !p.cmdline.isEmpty &&
          containsSeq "memgraph".toList (joined_cmdline p) then some p
      else find_memgraph_process ps
    else find_memgraph_process ps

/-- `AccurateResourceBenchmark.find_nendb_process`
(`accurate_resource_benchmark.py` lines 34-46). -/
def find_nendb_process : List ProcInfo → Option ProcInfo
  | [] => none
  | p :: ps =>
    if p.accessible then
      if name_matches "nen" p then some p
      else if !p.cmdline.isEmpty &&
          (containsSeq "nendb".toList (joined_cmdline p) ||
           containsSeq "nen".toList (joined_cmdline p)) then some p
      else find_nendb_process ps
    else find_nendb_process ps

/-! Derived records and concrete instances used by the statements below. -/

/-- The record `benchmark_nendb_resources` builds when the parse found no
insert line: the fallback constants and their derived rates.  Its type has
no field recording fallback provenance; it is indistinguishable from a
measured result with the same numbers. -/
def resource_fallback_record (baseline : SysStats) : NendbResourceResult :=
  { creation_rate := 1000 / resource_insert_fallback
    lookup_rate := 1000 / resource_lookup_fallback
    insert_time_ms := resource_insert_fallback
    lookup_time_ms := resource_lookup_fallback
    cpu_avg := baseline.cpu_avg
    cpu_max := baseline.cpu_max
    memory_avg_gb := baseline.memory_avg_gb
    memory_max_gb := baseline.memory_max_gb
    disk_read_mb := baseline.disk_read_total_mb
    disk_write_mb := baseline.disk_write_total_mb
    environment := "Native macOS" }

/-- The record `benchmark_nendb_fair` builds when either timing line is
missing (`fair_benchmark.py` lines 135-157); again no provenance field. -/
def fair_fallback_record : FairResults :=
  { single_create_ms := fair_insert_fallback
    single_lookup_ms := fair_lookup_fallback
    batch_create_ms := fair_insert_fallback
    batch_lookup_ms := fair_lookup_fallback
    single_create_rate := 1000 / fair_insert_fallback
    single_lookup_rate := 1000 / fair_lookup_fallback
    batch_create_rate := 1000 / fair_insert_fallback
    batch_lookup_rate := 1000 / fair_lookup_fallback
    memory_per_node := 144
    zero_fragmentation := true
    predictable_performance := true }

/-- A concrete baseline measurement used to instantiate theorems. -/
def base0 : SysStats :=
  { cpu_avg := 1, cpu_max := 2, cpu_min := 0, memory_avg_gb := 3,
    memory_max_gb := 4, memory_min_gb := 1, disk_read_total_mb := 5,
    disk_write_total_mb := 6 }

/-- A concrete system baseline for the accurate benchmark. -/
def accBase0 : AccSystemStats :=
  { cpu_avg := 1, cpu_max := 2, cpu_min := 0, memory_avg_gb := 3,
    memory_max_gb := 4, memory_min_gb := 1 }

/-- A NenDB resource result whose average CPU reading is zero, making it a
zero denominator in the report's efficiency quotients. -/
def nendbZeroCpu : NendbResourceResult :=
  { creation_rate := 1, lookup_rate := 1, insert_time_ms := 1,
    lookup_time_ms := 1, cpu_avg := 0, cpu_max := 0, memory_avg_gb := 1,
    memory_max_gb := 1, disk_read_mb := 1, disk_write_mb := 1,
    environment := "Native macOS" }

/-- A plain Memgraph resource result to compare `nendbZeroCpu` against. -/
def memgraphRes1 : MemgraphResourceResult :=
  { creation_rate := 1, lookup_rate := 1, creation_time := 1, lookup_time := 1,
    cpu_avg := 50, cpu_max := 60, memory_avg_gb := 2, memory_max_gb := 3,
    disk_read_mb := 1, disk_write_mb := 1, environment := "Docker Container" }

/-- The report `generate_resource_report` produces for `nendbZeroCpu` against
`memgraphRes1`: the CPU efficiency quotient is `float('inf')`. -/
def rep0 : ResourceReport :=
  { perf_ratio_q := 1, cpu_efficiency_val := .inf,
    memory_efficiency_val := .num 2, nendb_cpu_eff := 0,
    memgraph_cpu_eff := 1 / 50, nendb_mem_eff := 1, memgraph_mem_eff := 1 / 2,
    score := 3, max_score := 6 }

/-- Fair results with NenDB's boolean quality flags set, used to compare
against an identical-metrics opponent. -/
def fairTie : FairResults :=
  { single_create_ms := 1, single_lookup_ms := 1, batch_create_ms := 1,
    batch_lookup_ms := 1, single_create_rate := 1, single_lookup_rate := 1,
    batch_create_rate := 1, batch_lookup_rate := 1, memory_per_node := 144,
    zero_fragmentation := true, predictable_performance := true }

/-- The opponent side for `fairTie`: identical metric values, flags off. -/
def fairTieFlagsOff : FairResults :=
  { single_create_ms := 1, single_lookup_ms := 1, batch_create_ms := 1,
    batch_lookup_ms := 1, single_create_rate := 1, single_lookup_rate := 1,
    batch_create_rate := 1, batch_lookup_rate := 1, memory_per_node := 144,
    zero_fragmentation := false, predictable_performance := false }

/-- A concrete system-scoped NenDB accurate result. -/
def nAcc0 : AccurateNendbResult :=
  { creation_rate := 4, lookup_rate := 4, insert_time_ms := 1,
    lookup_time_ms := 1, cpu_avg := 1, cpu_max := 1, memory_avg_gb := 1,
    memory_max_gb := 1, environment := "Native macOS",
    note := "System-wide measurement during execution" }

/-- A concrete process-scoped Memgraph accurate result. -/
def mAcc0 : AccurateMemgraphResult :=
  { creation_rate := 2, creation_time := 1, cpu_avg := 1, cpu_max := 1,
    mem := .processMB 100 200, environment := "Docker Container",
    process_id := 42 }

/-- A concrete process table: one unrelated process, one accessible match by
command line only, one later match by name. -/
def procs0 : List ProcInfo :=
  [{ name := some "systemd", cmdline := ["/sbin/init"], accessible := true },
   { name := none, cmdline := ["/usr/bin/MemGraph", "--bolt-port", "7687"],
     accessible := true },
   { name := some "memgraphd", cmdline := [], accessible := true }]

/-! Helper lemmas. -/

lemma foldl_min_le_init (xs : List ℚ) (x : ℚ) : xs.foldl min x ≤ x := by
  induction xs generalizing x with
  | nil => exact le_refl x
  | cons y ys ih => exact le_trans (ih (min x y)) (min_le_left x y)

lemma foldl_min_le_mem (xs : List ℚ) (x a : ℚ) (ha : a ∈ xs) :
    xs.foldl min x ≤ a := by
  induction xs generalizing x with
  | nil => cases ha
  | cons y ys ih =>
    rcases List.mem_cons.mp ha with h | h
    · subst h
      exact le_trans (foldl_min_le_init ys (min x a)) (min_le_right x a)
    · exact ih (min x y) h

lemma pyMin_le_mem (l : List ℚ) (a : ℚ) (ha : a ∈ l) : pyMin l ≤ a := by
  cases l with
  | nil => cases ha
  | cons x xs =>
    rcases List.mem_cons.mp ha with h | h
    · subst h
      exact foldl_min_le_init xs a
    · exact foldl_min_le_mem xs x a h

lemma init_le_foldl_max (xs : List ℚ) (x : ℚ) : x ≤ xs.foldl max x := by
  induction xs generalizing x with
  | nil => exact le_refl x
  | cons y ys ih => exact le_trans (le_max_left x y) (ih (max x y))

lemma mem_le_foldl_max (xs : List ℚ) (x a : ℚ) (ha : a ∈ xs) :
    a ≤ xs.foldl max x := by
  induction xs generalizing x with
  | nil => cases ha
  | cons y ys ih =>
    rcases List.mem_cons.mp ha with h | h
    · subst h
      exact le_trans (le_max_right x a) (init_le_foldl_max ys (max x a))
    · exact ih (max x y) h

lemma mem_le_pyMax (l : List ℚ) (a : ℚ) (ha : a ∈ l) : a ≤ pyMax l := by
  cases l with
  | nil => cases ha
  | cons x xs =>
    rcases List.mem_cons.mp ha with h | h
    · subst h
      exact init_le_foldl_max xs a
    · exact mem_le_foldl_max xs x a h

lemma length_pos_q (l : List ℚ) (h : l ≠ []) : (0 : ℚ) < l.length := by
  exact_mod_cast List.length_pos.mpr h

lemma pyMin_le_listAvg (l : List ℚ) (h : l ≠ []) : pyMin l ≤ listAvg l := by
  have hs : l.length • pyMin l ≤ l.sum :=
    List.card_nsmul_le_sum l (pyMin l) fun x hx => pyMin_le_mem l x hx
  rw [nsmul_eq_mul] at hs
  unfold listAvg
  rw [le_div_iff₀ (length_pos_q l h)]
  calc pyMin l * l.length = l.length * pyMin l := mul_comm _ _
    _ ≤ l.sum := hs

lemma listAvg_le_pyMax (l : List ℚ) (h : l ≠ []) : listAvg l ≤ pyMax l := by
  have hs : l.sum ≤ l.length • pyMax l :=
    List.sum_le_card_nsmul l (pyMax l) fun x hx => mem_le_pyMax l x hx
  rw [nsmul_eq_mul] at hs
  unfold listAvg
  rw [div_le_iff₀ (length_pos_q l h)]
  calc l.sum ≤ l.length * pyMax l := hs
    _ = pyMax l * l.length := mul_comm _ _

lemma sampleLoop_length (process : Nat → Option (ℚ × ℚ)) :
    ∀ (k n t : Nat), k < n → (∀ i, i < k → (process (t + i)).isSome) →
      process (t + k) = none →
      (sampleLoop process n t).1.length = k ∧
      (sampleLoop process n t).2.length = k := by
  intro k
  induction k with
  | zero =>
    intro n t hkn _ hnone
    obtain ⟨n', rfl⟩ : ∃ n', n = n' + 1 := ⟨n - 1, by omega⟩
    rw [Nat.add_zero] at hnone
    simp [sampleLoop, hnone]
  | succ k ih =>
    intro n t hkn hsome hnone
    obtain ⟨n', rfl⟩ : ∃ n', n = n' + 1 := ⟨n - 1, by omega⟩
    have h0 : (process t).isSome := by
      have h := hsome 0 (Nat.succ_pos k)
      rwa [Nat.add_zero] at h
    obtain ⟨⟨c, m⟩, hcm⟩ := Option.isSome_iff_exists.mp h0
    have hrec := ih n' (t + 1) (by omega)
      (fun i hi => by
        have h := hsome (i + 1) (by omega)
        rwa [show t + (i + 1) = t + 1 + i from by omega] at h)
      (by
        have h : t + 1 + k = t + (k + 1) := by omega
        rw [h]
        exact hnone)
    simp only [sampleLoop, hcm, List.length_cons]
    omega

lemma containsSeq_eq_true_iff (pat hay : List Char) :
    containsSeq pat hay = true ↔ pat <:+: hay := by
  induction hay with
  | nil =>
    simp [containsSeq, List.infix_nil]
  | cons c cs ih =>
    simp [containsSeq, ih, List.isPrefixOf_iff_prefix, List.infix_cons_iff]

lemma find_memgraph_eq_findP (l : List ProcInfo) :
    find_memgraph_process l =
      l.find? fun p => p.accessible && matches_memgraph p := by
  induction l with
  | nil => rfl
  | cons p ps ih =>
    unfold find_memgraph_process
    simp only [List.find?_cons]
    cases hacc : p.accessible with
    | false => exact ih
    | true =>
      rw [if_pos rfl]
      cases hname : name_matches "memgraph" p with
      | true =>
        rw [if_pos rfl]
        rw [show matches_memgraph p = true from by
          simp only [matches_memgraph, hname, Bool.true_or]]
        rfl
      | false =>
        cases hcmd : (!p.cmdline.isEmpty &&
            containsSeq "memgraph".toList (joined_cmdline p)) with
        | true =>
          rw [if_neg (by simp), if_pos rfl]
          rw [show matches_memgraph p = true from by
            simp only [matches_memgraph, hname, hcmd, Bool.false_or]]
          rfl
        | false =>
          rw [if_neg (by simp), if_neg (by simp)]
          rw [show matches_memgraph p = false from by
            simp only [matches_memgraph, hname, hcmd, Bool.false_or]]
          exact ih

lemma find_nendb_eq_findP (l : List ProcInfo) :
    find_nendb_process l =
      l.find? fun p => p.accessible && matches_nendb p := by
  induction l with
  | nil => rfl
  | cons p ps ih =>
    unfold find_nendb_process
    simp only [List.find?_cons]
    cases hacc : p.accessible with
    | false => exact ih
    | true =>
      rw [if_pos rfl]
      cases hname : name_matches "nen" p with
      | true =>
        rw [if_pos rfl]
        rw [show matches_nendb p = true from by
          simp only [matches_nendb, hname, Bool.true_or]]
        rfl
      | false =>
        cases hcmd : (!p.cmdline.isEmpty &&
            (containsSeq "nendb".toList (joined_cmdline p) ||
             containsSeq "nen".toList (joined_cmdline p))) with
        | true =>
          rw [if_neg (by simp), if_pos rfl]
          rw [show matches_nendb p = true from by
            simp only [matches_nendb, hname, hcmd, Bool.false_or]]
          rfl
        | false =>
          rw [if_neg (by simp), if_neg (by simp)]
          rw [show matches_nendb p = false from by
            simp only [matches_nendb, hname, hcmd, Bool.false_or]]
          exact ih

lemma matches_memgraph_iff (p : ProcInfo) :
    matches_memgraph p = true ↔
      (∃ n, p.name = some n ∧ n ≠ "" ∧
        "memgraph".toList.map Char.toLower <:+: n.toList.map Char.toLower) ∨
      (p.cmdline ≠ [] ∧
        "memgraph".toList.map Char.toLower <:+:
          (String.intercalate " " p.cmdline).toList.map Char.toLower) := by
  have hlow : "memgraph".toList.map Char.toLower = "memgraph".toList := by
    decide
  rw [hlow]
  unfold matches_memgraph name_matches joined_cmdline pyLower
  cases hn : p.name with
  | none =>
    simp [containsSeq_eq_true_iff, List.isEmpty_iff]
  | some n =>
    simp [containsSeq_eq_true_iff, List.isEmpty_iff]

lemma matches_nendb_iff (p : ProcInfo) :
    matches_nendb p = true ↔
      (∃ n, p.name = some n ∧ n ≠ "" ∧
        "nen".toList.map Char.toLower <:+: n.toList.map Char.toLower) ∨
      (p.cmdline ≠ [] ∧
        "nen".toList.map Char.toLower <:+:
          (String.intercalate " " p.cmdline).toList.map Char.toLower) := by
  have hlow : "nen".toList.map Char.toLower = "nen".toList := by decide
  rw [hlow]
  unfold matches_nendb name_matches joined_cmdline pyLower
  cases hn : p.name with
  | none =>
    simp only [Bool.false_or, Bool.and_eq_true, Bool.or_eq_true,
      containsSeq_eq_true_iff, Bool.not_eq_eq_eq_not, Bool.not_true,
      List.isEmpty_eq_false, ne_eq, hn, Option.some.injEq, false_and,
      exists_false, false_or, reduceCtorEq]
    constructor
    · rintro ⟨hc, h | h⟩
      · exact ⟨hc, List.IsInfix.trans (by decide) h⟩
      · exact ⟨hc, h⟩
    · rintro ⟨hc, h⟩
      exact ⟨hc, Or.inr h⟩
  | some n =>
    simp only [Bool.or_eq_true, Bool.and_eq_true, containsSeq_eq_true_iff,
      decide_eq_true_eq, Bool.not_eq_eq_eq_not, Bool.not_true,
      List.isEmpty_eq_false, ne_eq, hn, Option.some.injEq, exists_eq_left,
      exists_eq_left']
    constructor
    · rintro (h | ⟨hc, h | h⟩)
      · exact Or.inl h
      · exact Or.inr ⟨hc, List.IsInfix.trans (by decide) h⟩
      · exact Or.inr ⟨hc, h⟩
    · rintro (h | ⟨hc, h⟩)
      · exact Or.inl h
      · exact Or.inr ⟨hc, Or.inr h⟩

lemma parse_lines_measured :
    parse_bench_output
      ["Average: 0.003328 ms per insert", "Average: 0.003130 ms per lookup"] =
      some (some resource_insert_fallback, some resource_lookup_fallback) := by
  simp [parse_bench_output, parse_step, strContains, containsSeq,
    List.isPrefixOf, extract_avg, afterFirst, upToFirst, trimChars,
    parsePyFloat, natOfDigits, digitVal, List.splitOn, List.splitOnP,
    List.splitOnP.go, resource_insert_fallback, resource_lookup_fallback]
  norm_num

lemma benchmark_nendb_resources_of_no_insert (baseline : SysStats)
    (lines : List String) (lk : Option ℚ)
    (h : parse_bench_output lines = some (none, lk)) :
    benchmark_nendb_resources baseline lines =
      some (resource_fallback_record baseline) := by
  unfold benchmark_nendb_resources
  rw [h]
  simp [resource_fallback_record, safeDiv, resource_insert_fallback,
    resource_lookup_fallback]

lemma benchmark_nendb_fair_of_unparsed (lines : List String)
    (ins lk : Option ℚ) (h : parse_bench_output lines = some (ins, lk))
    (hd : ins = none ∨ lk = none) :
    benchmark_nendb_fair lines = some fair_fallback_record := by
  unfold benchmark_nendb_fair
  rw [h]
  rcases hd with rfl | rfl
  · cases lk <;>
      simp [fair_fallback_record, safeDiv, fair_insert_fallback,
        fair_lookup_fallback]
  · cases ins <;>
      simp [fair_fallback_record, safeDiv, fair_insert_fallback,
        fair_lookup_fallback]

/-! Claim theorems. -/

/-- C1: aggregation over an empty sample series (empty CPU or memory list)
always yields the failure marker and never a zero-filled statistics record,
in both `monitor_process_resources` (which returns `{}`) and
`monitor_resources` (where `statistics.mean` raises). -/
theorem aggregate_empty_series_fails :
    (∀ cpu mem : List ℚ, cpu = [] ∨ mem = [] →
      monitor_process_aggregate cpu mem = none) ∧
    (∀ (cpu mem : List ℚ) (disk : List (ℚ × ℚ)), cpu = [] ∨ mem = [] →
      monitor_resources_aggregate cpu mem disk = none) := by
  constructor
  · intro cpu mem h
    unfold monitor_process_aggregate
    rw [if_pos h]
  · intro cpu mem disk h
    unfold monitor_resources_aggregate
    rw [if_pos h]

/-- Witness for C1 at concrete empty inputs. -/
theorem aggregate_empty_series_fails_holds :
    monitor_process_aggregate [] [5] = none ∧
    monitor_resources_aggregate [] [5] [(1, 2)] = none :=
  ⟨aggregate_empty_series_fails.1 [] [5] (Or.inl rfl),
   aggregate_empty_series_fails.2 [] [5] [(1, 2)] (Or.inl rfl)⟩

/-- C2: whenever aggregation of a sample series succeeds, the summary
satisfies `cpu_min ≤ cpu_avg ≤ cpu_max` and `memory_min ≤ memory_avg ≤
memory_max`, for both the process-scoped and the system-scoped monitor. -/
theorem aggregate_min_le_avg_le_max :
    (∀ (cpu mem : List ℚ) (s : ProcStats),
      monitor_process_aggregate cpu mem = some s →
      s.cpu_min ≤ s.cpu_avg ∧ s.cpu_avg ≤ s.cpu_max ∧
      s.memory_min_mb ≤ s.memory_avg_mb ∧ s.memory_avg_mb ≤ s.memory_max_mb) ∧
    (∀ (cpu mem : List ℚ) (disk : List (ℚ × ℚ)) (s : SysStats),
      monitor_resources_aggregate cpu mem disk = some s →
      s.cpu_min ≤ s.cpu_avg ∧ s.cpu_avg ≤ s.cpu_max ∧
      s.memory_min_gb ≤ s.memory_avg_gb ∧ s.memory_avg_gb ≤ s.memory_max_gb) := by
  constructor
  · intro cpu mem s h
    unfold monitor_process_aggregate at h
    by_cases hg : cpu = [] ∨ mem = []
    · rw [if_pos hg] at h
      cases h
    · rw [if_neg hg] at h
      obtain ⟨hc, hm⟩ := not_or.mp hg
      injection h with h
      subst h
      exact ⟨pyMin_le_listAvg cpu hc, listAvg_le_pyMax cpu hc,
             pyMin_le_listAvg mem hm, listAvg_le_pyMax mem hm⟩
  · intro cpu mem disk s h
    unfold monitor_resources_aggregate at h
    by_cases hg : cpu = [] ∨ mem = []
    · rw [if_pos hg] at h
      cases h
    · rw [if_neg hg] at h
      obtain ⟨hc, hm⟩ := not_or.mp hg
      injection h with h
      subst h
      exact ⟨pyMin_le_listAvg cpu hc, listAvg_le_pyMax cpu hc,
             pyMin_le_listAvg mem hm, listAvg_le_pyMax mem hm⟩

/-- Witness for C2 on the series cpu = [1, 2], memory = [4, 5]. -/
theorem aggregate_min_le_avg_le_max_holds :
    (1 : ℚ) ≤ 3 / 2 ∧ (3 / 2 : ℚ) ≤ 2 ∧ (4 : ℚ) ≤ 9 / 2 ∧ (9 / 2 : ℚ) ≤ 5 := by
  have h : monitor_process_aggregate [1, 2] [4, 5] =
      some ⟨3 / 2, 2, 1, 9 / 2, 5, 4⟩ := by
    simp [monitor_process_aggregate, listAvg, pyMax, pyMin, max_def, min_def]
    norm_num
  exact aggregate_min_le_avg_le_max.1 [1, 2] [4, 5] ⟨3 / 2, 2, 1, 9 / 2, 5, 4⟩ h

/-- C3: for positive elapsed times the derived throughput equals the
operation count divided by the elapsed seconds exactly: 10000 node creations
in `creation_time` seconds and 1000 lookups in `lookup_time` seconds in
`benchmark_memgraph_resources`, and 1000 operations per phase in
`real_benchmark_memgraph`. -/
theorem throughput_eq_count_div_elapsed :
    (∀ (baseline : SysStats) (creation_time lookup_time : ℚ),
      0 < creation_time → 0 < lookup_time →
      ∃ r, benchmark_memgraph_resources baseline creation_time lookup_time =
          some r ∧
        r.creation_rate = 10000 / creation_time ∧
        r.lookup_rate = 1000 / lookup_time) ∧
    (∀ ct lt rt : ℚ, 0 < ct → 0 < lt → 0 < rt →
      ∃ r, real_benchmark_memgraph ct lt rt = some r ∧
        r.node_creation_rate = 1000 / ct ∧
        r.node_lookup_rate = 1000 / lt ∧
        r.relationship_creation_rate = 1000 / rt) := by
  constructor
  · intro baseline ct lt hct hlt
    have he : benchmark_memgraph_resources baseline ct lt = some
        { creation_rate := 10000 / ct, lookup_rate := 1000 / lt,
          creation_time := ct, lookup_time := lt, cpu_avg := baseline.cpu_avg,
          cpu_max := baseline.cpu_max, memory_avg_gb := baseline.memory_avg_gb,
          memory_max_gb := baseline.memory_max_gb,
          disk_read_mb := baseline.disk_read_total_mb,
          disk_write_mb := baseline.disk_write_total_mb,
          environment := "Docker Container" } := by
      simp [benchmark_memgraph_resources, safeDiv, ne_of_gt hct, ne_of_gt hlt]
    exact ⟨_, he, rfl, rfl⟩
  · intro ct lt rt hct hlt hrt
    have he : real_benchmark_memgraph ct lt rt = some
        { node_creation_ms := ct / 1000 * 1000, node_lookup_ms := lt / 1000 * 1000,
          relationship_creation_ms := rt / 1000 * 1000,
          node_creation_rate := 1000 / ct, node_lookup_rate := 1000 / lt,
          relationship_creation_rate := 1000 / rt, memory_per_node := 200,
          zero_fragmentation := false, predictable_performance := false } := by
      simp [real_benchmark_memgraph, safeDiv, ne_of_gt hct, ne_of_gt hlt,
        ne_of_gt hrt]
    exact ⟨_, he, rfl, rfl, rfl⟩

/-- Witness for C3: 10000 nodes in a quarter second is 40000 nodes/sec and
1000 lookups in half a second is 2000 lookups/sec. -/
theorem throughput_eq_count_div_elapsed_holds :
    (benchmark_memgraph_resources base0 (1 / 4) (1 / 2)).map
      (fun r => (r.creation_rate, r.lookup_rate)) = some (40000, 2000) := by
  obtain ⟨r, hr, hc, hl⟩ :=
    throughput_eq_count_div_elapsed.1 base0 (1 / 4) (1 / 2) (by norm_num)
      (by norm_num)
  rw [hr]
  simp only [Option.map_some', hc, hl]
  norm_num

/-- C4 counterexample: an output with no `Average: ... ms per insert` line
substitutes the fallback constants, but the produced result is identical to
the one produced from an output genuinely reporting those same numbers — no
`fallback=true` provenance flag (nor any other distinguishing field) exists,
so the claimed provenance marking is absent. -/
theorem fallback_identical_to_measurement :
    parse_bench_output [""] = some (none, none) ∧
    benchmark_nendb_resources base0 [""] =
      benchmark_nendb_resources base0
        ["Average: 0.003328 ms per insert",
         "Average: 0.003130 ms per lookup"] ∧
    benchmark_nendb_resources base0 [""] ≠ none := by
  have h1 : parse_bench_output [""] = some (none, none) := by decide
  have hfb := benchmark_nendb_resources_of_no_insert base0 [""] none h1
  have hms : benchmark_nendb_resources base0
      ["Average: 0.003328 ms per insert",
       "Average: 0.003130 ms per lookup"] =
      some (resource_fallback_record base0) := by
    unfold benchmark_nendb_resources
    rw [parse_lines_measured]
    simp [resource_fallback_record, safeDiv, resource_insert_fallback,
      resource_lookup_fallback]
  refine ⟨h1, ?_, ?_⟩
  · rw [hfb, hms]
  · rw [hfb]
    simp

/-- C4 as amended: when the resource benchmark finds no insert line (or the
fair benchmark misses either line), it substitutes the hardcoded fallback
constants after a console warning, and the returned result record carries no
provenance flag of any kind — its type has only the measurement fields, so it
is indistinguishable from a real measurement of the same values. -/
theorem fallback_substituted_without_flag :
    (∀ (baseline : SysStats) (lines : List String) (lk : Option ℚ),
      parse_bench_output lines = some (none, lk) →
      benchmark_nendb_resources baseline lines =
        some (resource_fallback_record baseline)) ∧
    (∀ (lines : List String) (ins lk : Option ℚ),
      parse_bench_output lines = some (ins, lk) → ins = none ∨ lk = none →
      benchmark_nendb_fair lines = some fair_fallback_record) :=
  ⟨benchmark_nendb_resources_of_no_insert, benchmark_nendb_fair_of_unparsed⟩

/-- Witness for the amended C4 at the unparseable output consisting of one
empty line. -/
theorem fallback_substituted_without_flag_holds :
    benchmark_nendb_resources base0 [""] =
      some (resource_fallback_record base0) ∧
    benchmark_nendb_fair [""] = some fair_fallback_record :=
  ⟨fallback_substituted_without_flag.1 base0 [""] none (by decide),
   fallback_substituted_without_flag.2 [""] none none (by decide)
     (Or.inl rfl)⟩

/-- C5 counterexample: with a zero NenDB average CPU reading the generated
resource report contains the value `float('inf')` in its CPU-efficiency
field — an infinite value is propagated into the report, and no
undefined-ratio marker exists anywhere in the code. -/
theorem report_contains_infinity :
    (generate_resource_report nendbZeroCpu memgraphRes1).map
      (fun r => r.cpu_efficiency_val) = some PyVal.inf := by
  simp [generate_resource_report, safeDiv, nendbZeroCpu, memgraphRes1,
    cpu_efficiency, resource_total_score]

/-- C5 as amended: a zero (or non-positive) denominator makes
`cpu_efficiency`/`memory_efficiency` produce `float('inf')` and the
per-resource-unit efficiencies produce `0`; the infinity is stored in the
report unchanged.  No undefined-ratio marker is produced. -/
theorem zero_denominator_gives_inf :
    (∀ x : ℚ,
      cpu_efficiency x 0 = PyVal.inf ∧ memory_efficiency x 0 = PyVal.inf ∧
      per_cpu_efficiency x 0 = 0 ∧ per_mem_efficiency x 0 = 0) ∧
    (∀ (n : NendbResourceResult) (m : MemgraphResourceResult)
      (r : ResourceReport), generate_resource_report n m = some r →
      n.cpu_avg = 0 →
      r.cpu_efficiency_val = PyVal.inf ∧ r.nendb_cpu_eff = 0) := by
  constructor
  · intro x
    simp [cpu_efficiency, memory_efficiency, per_cpu_efficiency,
      per_mem_efficiency]
  · intro n m r hr h0
    unfold generate_resource_report at hr
    unfold safeDiv at hr
    by_cases hm : m.creation_rate = 0
    · rw [if_pos hm] at hr
      cases hr
    · rw [if_neg hm] at hr
      injection hr with hr
      subst hr
      constructor
      · show cpu_efficiency m.cpu_avg n.cpu_avg = PyVal.inf
        rw [h0]
        simp [cpu_efficiency]
      · show per_cpu_efficiency n.creation_rate n.cpu_avg = 0
        rw [h0]
        simp [per_cpu_efficiency]

/-- Witness for the amended C5, exercising both parts at concrete inputs. -/
theorem zero_denominator_gives_inf_holds :
    cpu_efficiency 5 0 = PyVal.inf ∧ rep0.cpu_efficiency_val = PyVal.inf ∧
    rep0.nendb_cpu_eff = 0 := by
  have hrep : generate_resource_report nendbZeroCpu memgraphRes1 =
      some rep0 := by
    simp [generate_resource_report, safeDiv, nendbZeroCpu, memgraphRes1, rep0,
      cpu_efficiency, memory_efficiency, per_cpu_efficiency,
      per_mem_efficiency, resource_total_score, resource_max_score]
    norm_num
  have h2 := zero_denominator_gives_inf.2 nendbZeroCpu memgraphRes1 rep0 hrep
    (by norm_num [nendbZeroCpu])
  exact ⟨(zero_denominator_gives_inf.1 5).1, h2.1, h2.2⟩

/-- C6: a process-scoped sampling run whose target disappears at tick `k` of
`n` requested ticks stops early with exactly the `k` samples collected so
far — not an error and not a series padded to length `n`; for `k > 0` the
subsequent aggregation succeeds. -/
theorem sampler_returns_partial_series (process : Nat → Option (ℚ × ℚ))
    (k n : Nat) (hkn : k < n) (hsome : ∀ i, i < k → (process i).isSome)
    (hgone : process k = none) :
    (sampleLoop process n 0).1.length = k ∧
    (sampleLoop process n 0).2.length = k ∧
    (0 < k → (monitor_process_resources process n).isSome = true) := by
  have h := sampleLoop_length process k n 0 hkn
    (fun i hi => by rw [Nat.zero_add]; exact hsome i hi)
    (by rw [Nat.zero_add]; exact hgone)
  refine ⟨h.1, h.2, fun hk => ?_⟩
  unfold monitor_process_resources monitor_process_aggregate
  have h1 : (sampleLoop process n 0).1 ≠ [] := by
    intro he
    rw [he] at h
    simp at h
    omega
  have h2 : (sampleLoop process n 0).2 ≠ [] := by
    intro he
    rw [he] at h
    simp at h
    omega
  rw [if_neg (by push_neg; exact ⟨h1, h2⟩)]
  simp

/-- Witness for C6: a process alive for 3 ticks of a 10-tick request yields a
length-3 series and a successful aggregation. -/
theorem sampler_returns_partial_series_holds :
    (sampleLoop (fun t => if t < 3 then some (1, 2) else none) 10 0).1.length
      = 3 ∧
    (sampleLoop (fun t => if t < 3 then some (1, 2) else none) 10 0).2.length
      = 3 ∧
    (0 < 3 → (monitor_process_resources
      (fun t => if t < 3 then some (1, 2) else none) 10).isSome = true) :=
  sampler_returns_partial_series (fun t => if t < 3 then some (1, 2) else none)
    3 10 (by decide) (by decide) (by decide)

/-- C7: each locator returns exactly the first enumerated accessible process
whose short name or space-joined command line contains its hint
case-insensitively (`memgraph`, resp. `nen` — the `'nendb' or 'nen'`
command-line test collapses to `nen` containment), and returns the
not-found value `None` instead of throwing when nothing matches. -/
theorem locator_first_match_or_none :
    (∀ l, find_memgraph_process l =
      l.find? fun p => p.accessible && matches_memgraph p) ∧
    (∀ p : ProcInfo, matches_memgraph p = true ↔
      (∃ n, p.name = some n ∧ n ≠ "" ∧
        "memgraph".toList.map Char.toLower <:+: n.toList.map Char.toLower) ∨
      (p.cmdline ≠ [] ∧
        "memgraph".toList.map Char.toLower <:+:
          (String.intercalate " " p.cmdline).toList.map Char.toLower)) ∧
    (∀ l, find_nendb_process l =
      l.find? fun p => p.accessible && matches_nendb p) ∧
    (∀ p : ProcInfo, matches_nendb p = true ↔
      (∃ n, p.name = some n ∧ n ≠ "" ∧
        "nen".toList.map Char.toLower <:+: n.toList.map Char.toLower) ∨
      (p.cmdline ≠ [] ∧
        "nen".toList.map Char.toLower <:+:
          (String.intercalate " " p.cmdline).toList.map Char.toLower)) ∧
    (∀ l, (∀ p ∈ l, ¬(p.accessible = true ∧ matches_memgraph p = true)) →
      find_memgraph_process l = none) := by
  refine ⟨find_memgraph_eq_findP, matches_memgraph_iff, find_nendb_eq_findP,
    matches_nendb_iff, fun l h => ?_⟩
  rw [find_memgraph_eq_findP]
  rw [List.find?_eq_none]
  intro p hp
  intro hmatch
  exact h p hp ⟨(Bool.and_eq_true _ _ |>.mp hmatch).1,
    (Bool.and_eq_true _ _ |>.mp hmatch).2⟩

/-- Witness for C7 on a concrete process table: the first-match equation
holds and the mixed-case command line `/usr/bin/MemGraph` matches. -/
theorem locator_first_match_or_none_holds :
    find_memgraph_process procs0 =
      procs0.find? (fun p => p.accessible && matches_memgraph p) ∧
    matches_memgraph
      { name := none, cmdline := ["/usr/bin/MemGraph", "--bolt-port", "7687"],
        accessible := true } = true ∧
    find_memgraph_process [] = none := by
  refine ⟨locator_first_match_or_none.1 procs0, ?_, ?_⟩
  · exact (locator_first_match_or_none.2.1 _).mpr
      (Or.inr ⟨by decide, by decide⟩)
  · exact locator_first_match_or_none.2.2.2.2 [] (by simp)

/-- C8 counterexample: with every metric tied and NenDB's two quality flags
set, the fair composite score is 2 while the number of strictly-won metrics
is 0 — the score does not count only strictly-won metrics; it also credits
the boolean flags. -/
theorem composite_score_credits_flags :
    fair_total_score fairTie fairTieFlagsOff = 2 ∧
    fair_strict_metric_wins fairTie fairTieFlagsOff = 0 ∧
    fair_max_score = 6 := by
  decide

/-- C8 as amended: each composite score equals the number of strictly-won
metrics (ties credit nothing) plus the number of set boolean quality flags,
and each composite maximum is the number of metrics plus the number of
flags: 4+2 for the fair report, 6+2 for the competitive report, 6+0 for
the resource report. -/
theorem composite_score_metrics_plus_flags :
    (∀ a b : FairResults, fair_total_score a b =
      fair_strict_metric_wins a b + fair_flag_count a) ∧
    fair_max_score = 4 + 2 ∧
    (∀ a x y : CompetitiveResults, competitive_total_score a x y =
      competitive_strict_metric_wins a x y + competitive_flag_count a) ∧
    competitive_max_score = 6 + 2 ∧
    (∀ (n : NendbResourceResult) (m : MemgraphResourceResult),
      resource_total_score n m = resource_strict_metric_wins n m) ∧
    resource_max_score = 6 + 0 ∧
    (∀ a b : FairResults, a.single_create_ms = b.single_create_ms →
      a.batch_create_ms = b.batch_create_ms →
      a.single_create_rate = b.single_create_rate →
      a.memory_per_node = b.memory_per_node →
      fair_total_score a b = fair_flag_count a) := by
  refine ⟨?_, rfl, ?_, rfl, fun n m => rfl, rfl, ?_⟩
  · intro a b
    unfold fair_total_score fair_strict_metric_wins fair_flag_count
    ring
  · intro a x y
    unfold competitive_total_score competitive_strict_metric_wins
      competitive_flag_count
    ring
  · intro a b h1 h2 h3 h4
    unfold fair_total_score fair_flag_count
    rw [h1, h2, h3, h4]
    simp [lt_irrefl]

/-- Witness for the amended C8 at a fully tied pair. -/
theorem composite_score_metrics_plus_flags_holds :
    fair_total_score fairTie fairTie =
      fair_strict_metric_wins fairTie fairTie + fair_flag_count fairTie ∧
    fair_total_score fairTie fairTie = fair_flag_count fairTie :=
  ⟨composite_score_metrics_plus_flags.1 fairTie fairTie,
   composite_score_metrics_plus_flags.2.2.2.2.2.2 fairTie fairTie rfl rfl rfl
     rfl⟩

/-- C9: comparing a process-scoped Memgraph result with the system-scoped
NenDB result still produces the report (the performance quotient is computed,
never withheld) and its analysis section is a non-empty list of caveat lines
flagging the methodology mismatch. -/
theorem scope_mismatch_keeps_caveats (n : AccurateNendbResult)
    (m : AccurateMemgraphResult) (hscope : memgraph_scope m ≠ nendb_scope n)
    (hrate : m.creation_rate ≠ 0) :
    (generate_accurate_report n m).isSome = true ∧
    ∀ r, generate_accurate_report n m = some r →
      r.analysis ≠ [] ∧ r.perf_ratio_q = n.creation_rate / m.creation_rate := by
  constructor
  · simp [generate_accurate_report, safeDiv, hrate]
  · intro r hr
    unfold generate_accurate_report safeDiv at hr
    rw [if_neg hrate] at hr
    injection hr with hr
    subst hr
    constructor
    · simp
    · rfl

/-- Witness for C9 at a concrete process-scoped versus system-scoped pair. -/
theorem scope_mismatch_keeps_caveats_holds :
    (generate_accurate_report nAcc0 mAcc0).isSome = true := by
  exact (scope_mismatch_keeps_caveats nAcc0 mAcc0 (by decide)
    (by norm_num [mAcc0])).1

/-- C10: an output whose insert line parses but whose lookup line is missing
leaves `lookup_time` unset; the fallback branch (testing only the insert
time) is skipped, the rate computation on the unset lookup time fails, and
the whole benchmark side returns the empty result, in both
`benchmark_nendb_resources` and `benchmark_nendb_accurate`. -/
theorem missing_lookup_line_empties_result :
    (∀ (baseline : SysStats) (lines : List String) (t : ℚ),
      parse_bench_output lines = some (some t, none) →
      benchmark_nendb_resources baseline lines = none) ∧
    (∀ (baseline : AccSystemStats) (lines : List String) (t : ℚ),
      parse_bench_output lines = some (some t, none) →
      benchmark_nendb_accurate baseline lines = none) := by
  constructor
  · intro baseline lines t h
    unfold benchmark_nendb_resources
    rw [h]
    simp
  · intro baseline lines t h
    unfold benchmark_nendb_accurate
    rw [h]
    simp

/-- Witness for C10 on an output with an insert line only. -/
theorem missing_lookup_line_empties_result_holds :
    benchmark_nendb_resources base0 ["Average: 1 ms per insert"] = none ∧
    benchmark_nendb_accurate accBase0 ["Average: 1 ms per insert"] = none := by
  have hp : parse_bench_output ["Average: 1 ms per insert"] =
      some (some 1, none) := by
    simp [parse_bench_output, parse_step, strContains, containsSeq,
      List.isPrefixOf, extract_avg, afterFirst, upToFirst, trimChars,
      parsePyFloat, natOfDigits, digitVal, List.splitOn, List.splitOnP,
      List.splitOnP.go]
  exact ⟨missing_lookup_line_empties_result.1 base0 _ 1 hp,
         missing_lookup_line_empties_result.2 accBase0 _ 1 hp⟩

end NenDBBench
